import Mathlib

/-!
Verification of the badrobot rule-evaluation and reporting engine
(`pkg/ruler/ruleset.go` and the rule catalog it builds).

The engine is embedded shallowly:
* machine integers become `Int`/`Nat` (no arithmetic here can overflow a
  64-bit Go `int`: scores are sums of at most 21 rule weights, counters are
  bounded by list lengths);
* the opaque external collaborators (the `pkg/rules` predicates and the
  `gojsonq` queries) are represented by an abstract document view `Doc`;
* the fan-out/fan-in dispatch delivers the per-rule results in an
  arbitrary order, so `generateReportWith` takes the channel arrival order
  as an explicit list, and order-sensitivity is quantified over
  permutations of the rule results.
-/

namespace Badrobot

/-- Per-evaluation rule result (`RuleRef` in `pkg/ruler`): match count and a
copy of the descriptive fields of the originating rule. -/
structure RuleRef where
  containers : Int
  id : String
  points : Int
  reason : String
  selector : String
  weight : Int
  link : String
deriving Repr, DecidableEq

/-- The three classification buckets of a report (`RuleScoring`). -/
structure RuleScoring where
  critical : List RuleRef
  passed : List RuleRef
  advise : List RuleRef
deriving Repr, DecidableEq

/-- Per-document outcome (`Report`). -/
structure Report where
  object : String
  fileName : String
  message : String
  score : Int
  valid : Bool
  rules : List RuleRef
  scoring : RuleScoring
deriving Repr, DecidableEq

/-- Abstract view of one normalized JSON document, exactly the observations
the engine makes of it: whether `gojsonq` can parse it (`queryable`), the
`kind`, `metadata.name` and `metadata.namespace` query results (`none` when
the path is absent), and, for every named predicate of `pkg/rules`, the
match count that opaque pure collaborator returns on this document. -/
structure Doc where
  queryable : Bool
  kind : Option String
  name : Option String
  nspace : Option String
  counts : String → Int

/-- A catalog rule descriptor (`Rule`); `predicate` is the opaque pure
function from document to match count referenced from `pkg/rules`.
Fields that a Go literal omits default to the Go zero value. -/
structure Rule where
  predicate : Doc → Int
  id : String
  selector : String
  reason : String
  kinds : List String
  points : Int
  advise : Int := 0
  weight : Int := 0
  link : String := ""

/-- The named external predicate `rules.<s>` of `pkg/rules`, read off the
abstract document view. -/
def predNamed (s : String) : Doc → Int := fun d => d.counts s

/-- Modelled from the spec: the file defining `Rule.Eval` and
`NotSupportedError` is not under `src/`; per the predicate contract and the
glossary of the spec, evaluation yields the not-applicable signal (`none`)
exactly when the kind filter of the rule excludes the kind of the document,
and otherwise the match count of the predicate. -/
def Rule.eval (r : Rule) (d : Doc) : Option Int :=
  match d.kind with
  | none => none
  | some k => if k ∈ r.kinds then some (r.predicate d) else none

/-- Source function `eval` of `ruleset.go`: skip the rule on the
not-applicable signal, otherwise build the `RuleRef` that is sent to the
result channel. -/
def evalRule (d : Doc) (rule : Rule) : Option RuleRef :=
  (rule.eval d).map fun containers =>
    { containers := containers, id := rule.id, points := rule.points,
      reason := rule.reason, selector := rule.selector,
      weight := rule.weight, link := rule.link }

/-- The multiset of results delivered on the fan-in channel for one
document, listed in catalog order; the actual arrival order at the
collection loop is an arbitrary permutation of this list. -/
def results (rules : List Rule) (d : Doc) : List RuleRef :=
  rules.filterMap (evalRule d)

/-- Source function `containsRule`: membership by structural equality
(`reflect.DeepEqual`). -/
def containsRule (rules : List RuleRef) (newRule : RuleRef) : Bool :=
  rules.any fun rule => rule == newRule

/-- Source function `appendUniqueRule`. -/
def appendUniqueRule (uniqueRules : List RuleRef) (newRule : RuleRef) : List RuleRef :=
  if !containsRule uniqueRules newRule then uniqueRules ++ [newRule] else uniqueRules

/-- Mutable state of the collection loop of `generateReport`. -/
structure Collected where
  appliedRules : Nat
  rules : List RuleRef
  score : Int
  passed : List RuleRef
  critical : List RuleRef
  advise : List RuleRef
deriving Repr, DecidableEq

def initialCollected : Collected :=
  { appliedRules := 0, rules := [], score := 0, passed := [], critical := [], advise := [] }

/-- One iteration of the collection loop of `generateReport`: count the
result, record it in `Rules` (deduplicated), then classify it.  The two
sequential `if` statements of the Go source on the sign of `Points` are
kept as written (their guards are mutually exclusive). -/
def collectOne (st : Collected) (ruleRef : RuleRef) : Collected :=
  let st1 : Collected :=
    { st with appliedRules := st.appliedRules + 1,
              rules := appendUniqueRule st.rules ruleRef }
  if 0 < ruleRef.containers then
    let st2 : Collected :=
      if 0 ≤ ruleRef.points then
        { st1 with score := st1.score + ruleRef.points,
                   passed := st1.passed ++ [ruleRef] }
      else st1
    if ruleRef.points < 0 then
      { st2 with score := st2.score + ruleRef.points,
                 critical := st2.critical ++ [ruleRef] }
    else st2
  else
    if 0 ≤ ruleRef.points then
      { st1 with advise := st1.advise ++ [ruleRef] }
    else st1

/-- Draining the result channel in arrival order. -/
def collect (arrival : List RuleRef) : Collected :=
  arrival.foldl collectOne initialCollected

/-- Byte-wise (here: character-wise; all rule identifiers are ASCII)
lexicographic strict order, as Go compares strings. -/
def strLtCore : List Char → List Char → Bool
  | [], [] => false
  | [], _ :: _ => true
  | _ :: _, [] => false
  | a :: as, b :: bs =>
    if a.toNat < b.toNat then true
    else if b.toNat < a.toNat then false
    else strLtCore as bs

/-- Go `<` on strings. -/
def strLt (a b : String) : Bool := strLtCore a.data b.data

/-- Modelled from the spec: the file defining the Less method of
`RuleRefCustomOrder` is not under `src/`; the comparator orders primarily by
the advise weight (`RuleRef.Weight`) descending, with rule ID ascending as
the tie-break.  `ruleRefLE a b` states that `a` may come before `b` in the
sorted output: either `a` has the larger weight, or the weights are equal
and the ID of `a` does not come after the ID of `b`. -/
def ruleRefLE (a b : RuleRef) : Prop :=
  b.weight < a.weight ∨ (a.weight = b.weight ∧ strLt b.id a.id = false)

instance : DecidableRel ruleRefLE := fun a b => by
  unfold ruleRefLE; infer_instance

/-- Model of `sort.Sort(RuleRefCustomOrder(...))`: an in-place comparison
sort whose contract is that the output is a permutation of the input,
sorted by the comparator; modelled by insertion sort. -/
def sortRefs (l : List RuleRef) : List RuleRef := l.insertionSort ruleRefLE

/-- Source function `getObjectName` of `ruleset.go`: display identity of a
document. -/
def getObjectName (d : Doc) : String :=
  if !d.queryable then "Unknown"
  else
    match d.kind with
    | none => "Unknown"
    | some kind =>
      let object := kind
      let object :=
        match d.name with
        | none => object ++ "/undefined"
        | some name => object ++ "/" ++ name
      match d.nspace with
      | none => object ++ ".default"
      | some ns => object ++ "." ++ ns

def notSupportedMessage : String := "This resource kind is not supported by badrobot"

def passedMessage (score : Int) : String :=
  "Passed with a score of " ++ toString score ++ " points"

def failedMessage (score : Int) : String :=
  "Failed with a score of " ++ toString score ++ " points"

/-- Source function `generateReport` of `ruleset.go`, as a function of the
channel arrival order.  The kubeval schema-validation block of the source is commented out
("KGW removed kubeval due to out of date schema validation breaking rule
checks"), so no validator is consulted, `Valid` is set to `true`
unconditionally, and the catalog is always dispatched. -/
def generateReportWith (fileName : String) (d : Doc) (arrival : List RuleRef) : Report :=
  let st := collect arrival
  let message :=
    if st.appliedRules < 1 then notSupportedMessage
    else if 0 ≤ st.score then passedMessage st.score
    else failedMessage st.score
  { object := getObjectName d
    fileName := fileName
    message := message
    score := st.score
    valid := true
    rules := st.rules
    scoring :=
      { critical := sortRefs st.critical
        passed := sortRefs st.passed
        advise := sortRefs st.advise } }

/-- Specialization of `generateReportWith` to the schedule in which the
channel delivers in catalog order (one admissible schedule). -/
def generateReport (rules : List Rule) (fileName : String) (d : Doc) : Report :=
  generateReportWith fileName d (results rules d)

/-- Source function `NewRuleset`: the fixed catalog, in construction
order. -/
def newRuleset : List Rule :=
  [ { predicate := predNamed "DefaultNamespace"
      id := "DefaultNamespace"
      selector := ".metadata .name == default .subjects .namespace == default"
      reason := "Operator is deployed into the default namespace."
      kinds := ["Namespace", "Deployment", "ClusterRoleBinding"]
      points := -3 }
  , { predicate := predNamed "KubeSystemNamespace"
      id := "KubeSystemNamespace"
      selector := ".metadata .name == kube-system .subjects .namespace == kube-system"
      reason := "Operator is deployed into the kube-system namespace."
      kinds := ["Namespace", "Deployment", "ClusterRoleBinding"]
      points := -9 }
  , { predicate := predNamed "NoSecurityContext"
      id := "NoSecurityContext"
      selector := ".spec .template .spec .securityContext .containers[] "
      reason := "Operators should be deployed with securityContextApplied"
      kinds := ["Pod", "Deployment", "StatefulSet", "DaemonSet"]
      points := -9 }
  , { predicate := predNamed "ReadOnlyRootFilesystem"
      id := "ReadOnlyRootFilesystem"
      selector := "containers[] .securityContext .readOnlyRootFilesystem == true"
      reason := "An immutable root filesystem can prevent malicious binaries being added to PATH and increase attack cost"
      kinds := ["Pod", "Deployment", "StatefulSet", "DaemonSet"]
      points := 1
      advise := 3 }
  , { predicate := predNamed "RunAsNonRoot"
      id := "RunAsNonRoot"
      selector := "containers[] .securityContext .runAsNonRoot == true"
      reason := "Force the running image to run as a non-root user to ensure least privilege"
      kinds := ["Pod", "Deployment", "StatefulSet", "DaemonSet"]
      points := 1
      advise := 10 }
  , { predicate := predNamed "RunAsUser"
      id := "RunAsUser"
      selector := "containers[] .securityContext .runAsUser -gt 10000"
      reason := "Run as a high-UID user to avoid conflicts with the host's user table"
      kinds := ["Pod", "Deployment", "StatefulSet", "DaemonSet"]
      points := 1
      advise := 4 }
  , { predicate := predNamed "Privileged"
      id := "Privileged"
      selector := "containers[] .securityContext .privileged == true"
      reason := "Privileged containers can allow almost completely unrestricted host access"
      kinds := ["Pod", "Deployment", "StatefulSet", "DaemonSet"]
      points := -30 }
  , { predicate := predNamed "CapSysAdmin"
      id := "CapSysAdmin"
      selector := "containers[] .securityContext .capabilities .add == SYS_ADMIN"
      reason := "CAP_SYS_ADMIN is the most privileged capability and should always be avoided"
      kinds := ["Pod", "Deployment", "StatefulSet", "DaemonSet"]
      points := -30 }
  , { predicate := predNamed "CapDropAny"
      id := "CapDropAny"
      selector := "containers[] .securityContext .capabilities .drop"
      reason := "Reducing kernel capabilities available to a container limits its attack surface"
      kinds := ["Pod", "Deployment", "StatefulSet", "DaemonSet"]
      points := 1 }
  , { predicate := predNamed "CapDropAll"
      id := "CapDropAll"
      selector := "containers[] .securityContext .capabilities .drop | index(\"ALL\")"
      reason := "Drop all capabilities and add only those required to reduce syscall attack surface"
      kinds := ["Pod", "Deployment", "StatefulSet", "DaemonSet"]
      points := 1 }
  , { predicate := predNamed "AllowPrivilegeEscalation"
      id := "AllowPrivilegeEscalation"
      selector := "containers[] .securityContext .allowPrivilegeEscalation == true"
      reason := ""
      kinds := ["Pod", "Deployment", "StatefulSet", "DaemonSet"]
      points := -7 }
  , { predicate := predNamed "ClusterAdmin"
      id := "ClusterAdmin"
      selector := ".roleRef .name"
      reason := "The Operator is using Kubernetes native cluster admin role. Operators must use a dedicated cluster role"
      kinds := ["ClusterRoleBinding"]
      points := -30 }
  , { predicate := predNamed "StarAllClusterRole"
      id := "StarAllClusterRole"
      selector := ".rules .apiGroups .resources .verbs"
      reason := "The Operator SA cluster role has full permissions on all resources in the cluster"
      kinds := ["ClusterRole"]
      points := -30 }
  , { predicate := predNamed "StarAllCoreAPIClusterRole"
      id := "StarAllCoreAPIClusterRole"
      selector := ".rules .apiGroups .resources .verbs"
      reason := "The Operator SA cluster role has full permissions on all CoreAPI resources in the cluster"
      kinds := ["ClusterRole"]
      points := -30 }
  , { predicate := predNamed "StarClusterRoleAndBindings"
      id := "StarClusterRoleAndBindings"
      selector := ".rules .apiGroups .resources .verbs"
      reason := "The Operator SA cluster role has full permissions over ClusterRoles and ClusterRoleBindings"
      kinds := ["ClusterRole"]
      points := -9 }
  , { predicate := predNamed "SecretsClusterRole"
      id := "SecretsClusterRole"
      selector := ".rules .apiGroups .resources .verbs"
      reason := "The Operator SA cluster role has access to all secrets"
      kinds := ["ClusterRole"]
      points := -9 }
  , { predicate := predNamed "ExecPodsClusterRole"
      id := "ExecPodsClusterRole"
      selector := ".rules .apiGroups .resources .verbs"
      reason := "The Operator SA cluster role has permissions to exec into any pod in the cluster"
      kinds := ["ClusterRole"]
      points := -9 }
  , { predicate := predNamed "EscalateClusterRole"
      id := "EscalateClusterRole"
      selector := ".rules .apiGroups .resources .verbs"
      reason := "The Operator SA cluster role has escalate permissions"
      kinds := ["ClusterRole"]
      points := -9 }
  , { predicate := predNamed "BindClusterRole"
      id := "BindClusterRole"
      selector := ".rules .apiGroups .resources .verbs"
      reason := "The Operator SA cluster role has bind permissions"
      kinds := ["ClusterRole"]
      points := -9 }
  , { predicate := predNamed "ImpersonateClusterRole"
      id := "ImpersonateClusterRole"
      selector := ".rules .apiGroups .resources .verbs"
      reason := "The Operator SA cluster role has impersonate permissions"
      kinds := ["ClusterRole"]
      points := -30 }
  , { predicate := predNamed "ModifyPodLogsClusterRole"
      id := "ModifyPodLogsClusterRole"
      selector := ".rules .apiGroups .resources .verbs"
      reason := "The Operator SA cluster role has permissions to modify pod logs"
      kinds := ["ClusterRole"]
      points := -1 }
  ]

/-- Whitespace in the sense of Go `unicode.IsSpace`, restricted to the
code points that can occur in the inputs considered (ASCII plus the two
Latin-1 spaces). -/
def isSpaceChar (c : Char) : Bool :=
  c == ' ' || c == '\t' || c == '\n' || c == '\x0b' || c == '\x0c' ||
    c == '\x0d' || c == '\x85' || c == '\xa0'

/-- Go `bytes.TrimSpace`. -/
def trimSpace (s : String) : String :=
  String.mk (((s.data.dropWhile isSpaceChar).reverse.dropWhile isSpaceChar).reverse)

/-- Does `pre` occur at the start of `l`? -/
def startsWithList : List Char → List Char → Bool
  | _, [] => true
  | [], _ :: _ => false
  | a :: as, b :: bs => a == b && startsWithList as bs

/-- Splitting on the first-completed occurrence of the (reversed) separator:
`racc` holds the current fragment reversed; a fragment ends as soon as the
separator has just been read.  This reproduces Go `bytes.Split` for a
non-empty separator (leftmost, non-overlapping occurrences). -/
def splitOnAux (rsep : List Char) : List Char → List Char → List (List Char)
  | [], racc => [racc.reverse]
  | c :: rest, racc =>
    let racc2 := c :: racc
    if startsWithList racc2 rsep then
      (racc2.drop rsep.length).reverse :: splitOnAux rsep rest []
    else
      splitOnAux rsep rest racc2

/-- Go `bytes.Split` (for the non-empty separators this program uses). -/
def stringSplit (s sep : String) : List String :=
  (splitOnAux sep.data.reverse s.data []).map String.mk

/-- Value of `runtime.GOOS == "windows"` on the modelled (Linux) host. -/
def goosIsWindows : Bool := false

/-- Source function `detectLineBreak`: CRLF is selected only when the input
contains one and the host is Windows, hence never on the modelled host. -/
def detectLineBreak (haystack : String) : String :=
  if (stringSplit haystack "\r\n").length > 1 && goosIsWindows then "\r\n" else "\n"

/-- The ordered fragments Run iterates over for a non-JSON input. -/
def fragmentsOf (input : String) : List String :=
  stringSplit input (detectLineBreak input ++ "---" ++ detectLineBreak input)

/-- Skip test in the fragment loop of `Run`: empty after trimming, or a
bare separator marker. -/
def skipFragment (doc : String) : Bool :=
  doc.length == 0 || (doc.length == 3 && doc == "---")

/-- Errors Run can return: the structural `InvalidInputError`, or a YAML
conversion error carrying the message of the converter. -/
inductive RunErr where
  | invalidInput
  | convErr (msg : String)
deriving Repr, DecidableEq

/-- Per-fragment loop of the source function `Run`.  `toJSON` is the
external `yaml.YAMLToJSON` collaborator; `gen` is `generateReport` applied
to a converted document.  Returns the reports built so far together with
the error, exactly as the two Go return values. -/
def runLoop (toJSON : String → Except String String) (gen : String → Report) :
    List Report → List String → List Report × Option RunErr
  | reports, [] => (reports, none)
  | reports, d :: rest =>
    let doc := trimSpace d
    if skipFragment doc then
      if rest.isEmpty && reports.isEmpty then ([], some RunErr.invalidInput)
      else runLoop toJSON gen reports rest
    else
      match toJSON doc with
      | Except.error e => (reports, some (RunErr.convErr e))
      | Except.ok data => runLoop toJSON gen (reports ++ [gen data]) rest

/-- Source function `Run` of `ruleset.go`.  `isValidJSON` is `json.Valid`;
a valid-JSON input is one single document, otherwise the input is split and
the loop runs. -/
def Run (isValidJSON : String → Bool) (toJSON : String → Except String String)
    (gen : String → Report) (fileBytes : String) : List Report × Option RunErr :=
  if isValidJSON fileBytes then ([gen fileBytes], none)
  else runLoop toJSON gen [] (fragmentsOf fileBytes)


/-- Total points of a list of results. -/
def sumPoints (l : List RuleRef) : Int := (l.map RuleRef.points).sum

/-- Bucket test for Passed: matched and non-negative points. -/
def passedTest (x : RuleRef) : Bool :=
  if 0 < x.containers then (if 0 ≤ x.points then true else false) else false

/-- Bucket test for Critical: matched and negative points. -/
def criticalTest (x : RuleRef) : Bool :=
  if 0 < x.containers then (if x.points < 0 then true else false) else false

/-- Bucket test for Advise: unmatched and non-negative points. -/
def adviseTest (x : RuleRef) : Bool :=
  if 0 < x.containers then false else (if 0 ≤ x.points then true else false)

/-- Results that land in no bucket: unmatched and negative points. -/
def droppedTest (x : RuleRef) : Bool :=
  if 0 < x.containers then false else (if x.points < 0 then true else false)

/-! ### Claim-side formulations and concrete instances -/

/-- Object identity exactly as claim C9 words it: always the full
kind/name.namespace triple, with each component defaulting independently
(kind to "Unknown" when absent or the document is not queryable, name to
"undefined", namespace to "default"). -/
def claimedObjectName (d : Doc) : String :=
  (if d.queryable then d.kind.getD "Unknown" else "Unknown") ++ "/" ++
    d.name.getD "undefined" ++ "." ++ d.nspace.getD "default"

/-- Corrected description of the object identity: the full triple is
produced only when the document is queryable and has a kind; otherwise the
identity is the bare string "Unknown" with no name or namespace part. -/
def amendedObjectName (d : Doc) : String :=
  if d.queryable then
    match d.kind with
    | none => "Unknown"
    | some k => k ++ "/" ++ d.name.getD "undefined" ++ "." ++ d.nspace.getD "default"
  else "Unknown"

/-- A Pod document on which every predicate reports zero matches. -/
def docPodAllZero : Doc :=
  { queryable := true, kind := some "Pod", name := none, nspace := none,
    counts := fun _ => 0 }

/-- A queryable document with no kind (for example the JSON document `{}`),
on which every predicate reports zero matches. -/
def docNoKind : Doc :=
  { queryable := true, kind := none, name := none, nspace := none,
    counts := fun _ => 0 }

/-- A queryable document with a name and a namespace but no kind. -/
def docKindlessNamed : Doc :=
  { queryable := true, kind := none, name := some "app", nspace := some "prod",
    counts := fun _ => 0 }

/-- The result the Privileged rule sends for a Pod document with zero
matches. -/
def privRef : RuleRef :=
  { containers := 0, id := "Privileged", points := -30,
    reason := "Privileged containers can allow almost completely unrestricted host access",
    selector := "containers[] .securityContext .privileged == true",
    weight := 0, link := "" }

/-- A fixed report value used as the output of the abstract generator in
concrete instantiations. -/
def report0 : Report :=
  { object := "Unknown", fileName := "w", message := "", score := 0, valid := true,
    rules := [], scoring := { critical := [], passed := [], advise := [] } }

/-- Concrete stand-in for `generateReport` in splitter instantiations. -/
def gen0 : String → Report := fun _ => report0

/-- Concrete stand-in for `json.Valid` that rejects every input. -/
def isV0 : String → Bool := fun _ => false

/-- Concrete stand-in for `yaml.YAMLToJSON` that fails on the fragment
"bad" and echoes every other fragment. -/
def toJSON0 : String → Except String String :=
  fun s => if s = "bad" then Except.error "boom" else Except.ok s

/-! ### Order-theoretic facts about the comparator -/

lemma strLtCore_asymm : ∀ a b : List Char, strLtCore a b = true → strLtCore b a = false := by
  intro a
  induction a with
  | nil =>
    intro b h
    cases b with
    | nil => simp [strLtCore] at h
    | cons y ys => simp [strLtCore]
  | cons x xs ih =>
    intro b h
    cases b with
    | nil => simp [strLtCore] at h
    | cons y ys =>
      simp only [strLtCore] at h ⊢
      by_cases h1 : x.toNat < y.toNat
      · rw [if_neg (by omega), if_pos h1]
      · by_cases h2 : y.toNat < x.toNat
        · rw [if_neg h1, if_pos h2] at h
          exact absurd h (by simp)
        · rw [if_neg h1, if_neg h2] at h
          rw [if_neg h2, if_neg h1]
          exact ih ys h

lemma strLtCore_false_trans :
    ∀ a b c : List Char, strLtCore a b = false → strLtCore b c = false →
      strLtCore a c = false := by
  intro a
  induction a with
  | nil =>
    intro b c h1 h2
    cases b with
    | nil => exact h2
    | cons y ys => simp [strLtCore] at h1
  | cons x xs ih =>
    intro b c h1 h2
    cases c with
    | nil => simp [strLtCore]
    | cons z zs =>
      cases b with
      | nil => simp [strLtCore] at h2
      | cons y ys =>
        simp only [strLtCore] at h1 h2 ⊢
        by_cases hxy : x.toNat < y.toNat
        · rw [if_pos hxy] at h1
          exact absurd h1 (by simp)
        · by_cases hyz : y.toNat < z.toNat
          · rw [if_pos hyz] at h2
            exact absurd h2 (by simp)
          · by_cases hyx : y.toNat < x.toNat
            · rw [if_neg (by omega), if_pos (by omega)]
            · by_cases hzy : z.toNat < y.toNat
              · rw [if_neg (by omega), if_pos (by omega)]
              · rw [if_neg hxy, if_neg hyx] at h1
                rw [if_neg hyz, if_neg hzy] at h2
                rw [if_neg (by omega), if_neg (by omega)]
                exact ih ys zs h1 h2

lemma strLtCore_eq_of_false_false :
    ∀ a b : List Char, strLtCore a b = false → strLtCore b a = false → a = b := by
  intro a
  induction a with
  | nil =>
    intro b h1 _
    cases b with
    | nil => rfl
    | cons y ys => simp [strLtCore] at h1
  | cons x xs ih =>
    intro b h1 h2
    cases b with
    | nil => simp [strLtCore] at h2
    | cons y ys =>
      simp only [strLtCore] at h1 h2
      by_cases hxy : x.toNat < y.toNat
      · rw [if_pos hxy] at h1
        exact absurd h1 (by simp)
      · by_cases hyx : y.toNat < x.toNat
        · rw [if_pos hyx] at h2
          exact absurd h2 (by simp)
        · rw [if_neg hxy, if_neg hyx] at h1
          rw [if_neg hyx, if_neg hxy] at h2
          have h3 : x.toNat = y.toNat := by omega
          unfold Char.toNat at h3
          have hx : x = y := Char.eq_of_val_eq (UInt32.ext h3)
          rw [hx, ih ys h1 h2]

lemma strLt_eq_of_false_false {a b : String}
    (h1 : strLt a b = false) (h2 : strLt b a = false) : a = b :=
  String.ext (strLtCore_eq_of_false_false a.data b.data h1 h2)

instance : IsTotal RuleRef ruleRefLE := by
  constructor
  intro a b
  unfold ruleRefLE
  by_cases hw : a.weight = b.weight
  · cases hlt : strLt b.id a.id with
    | false => exact Or.inl (Or.inr ⟨hw, rfl⟩)
    | true =>
      refine Or.inr (Or.inr ⟨hw.symm, ?_⟩)
      exact strLtCore_asymm b.id.data a.id.data hlt
  · rcases lt_or_gt_of_ne hw with h | h
    · exact Or.inr (Or.inl h)
    · exact Or.inl (Or.inl h)

instance : IsTrans RuleRef ruleRefLE := by
  constructor
  intro a b c hab hbc
  unfold ruleRefLE at hab hbc ⊢
  rcases hab with h1 | ⟨hw1, hs1⟩
  · rcases hbc with h2 | ⟨hw2, hs2⟩
    · exact Or.inl (by omega)
    · exact Or.inl (by omega)
  · rcases hbc with h2 | ⟨hw2, hs2⟩
    · exact Or.inl (by omega)
    · refine Or.inr ⟨by omega, ?_⟩
      exact strLtCore_false_trans c.id.data b.id.data a.id.data hs2 hs1

lemma sortRefs_sorted (l : List RuleRef) : List.Sorted ruleRefLE (sortRefs l) :=
  List.sorted_insertionSort ruleRefLE l

lemma sortRefs_perm (l : List RuleRef) : (sortRefs l).Perm l :=
  List.perm_insertionSort ruleRefLE l

/-- Two sorted lists that are permutations of each other and have pairwise
distinct `id` fields are equal: the comparator is a total preorder that is
antisymmetric up to (weight, id), and distinct members of such a list never
tie. -/
lemma eq_of_perm_of_sorted_nodupIds :
    ∀ {l1 l2 : List RuleRef}, l1.Perm l2 → List.Sorted ruleRefLE l1 →
      List.Sorted ruleRefLE l2 → (l1.map RuleRef.id).Nodup → l1 = l2 := by
  intro l1
  induction l1 with
  | nil =>
    intro l2 hp _ _ _
    exact (hp.symm.eq_nil).symm ▸ rfl
  | cons a t1 ih =>
    intro l2 hp hs1 hs2 hnd
    cases l2 with
    | nil => exact absurd hp.eq_nil (by simp)
    | cons b t2 =>
      by_cases hab : a = b
      · subst hab
        have hpt := hp.cons_inv
        have := ih hpt hs1.of_cons hs2.of_cons (by simpa using hnd.of_cons)
        rw [this]
      · exfalso
        have ha2 : a ∈ b :: t2 := hp.subset (List.mem_cons_self a t1)
        have hat2 : a ∈ t2 := by
          rcases List.mem_cons.mp ha2 with h | h
          · exact absurd h hab
          · exact h
        have hb1 : b ∈ a :: t1 := hp.symm.subset (List.mem_cons_self b t2)
        have hbt1 : b ∈ t1 := by
          rcases List.mem_cons.mp hb1 with h | h
          · exact absurd h.symm hab
          · exact h
        have hba : ruleRefLE b a := List.rel_of_sorted_cons hs2 a hat2
        have hab2 : ruleRefLE a b := List.rel_of_sorted_cons hs1 b hbt1
        unfold ruleRefLE at hba hab2
        rcases hab2 with h1 | ⟨hw1, hs1x⟩ <;> rcases hba with h2 | ⟨hw2, hs2x⟩
        · omega
        · omega
        · omega
        · have hid : b.id = a.id := strLt_eq_of_false_false hs1x hs2x
          have : a.id ∈ t1.map RuleRef.id := by
            rw [← hid]
            exact List.mem_map_of_mem RuleRef.id hbt1
          simp only [List.map_cons, List.nodup_cons] at hnd
          exact hnd.1 this

lemma sumPoints_of_perm {l1 l2 : List RuleRef} (h : l1.Perm l2) :
    sumPoints l1 = sumPoints l2 :=
  (h.map RuleRef.points).sum_eq

/-! ### Characterization of the collection loop -/

lemma collectOne_pos_nonneg (st : Collected) (x : RuleRef)
    (hc : 0 < x.containers) (hp : 0 ≤ x.points) :
    collectOne st x =
      { appliedRules := st.appliedRules + 1, rules := appendUniqueRule st.rules x,
        score := st.score + x.points, passed := st.passed ++ [x],
        critical := st.critical, advise := st.advise } := by
  have h2 : ¬ x.points < 0 := by omega
  simp [collectOne, hc, hp, h2]

lemma collectOne_pos_neg (st : Collected) (x : RuleRef)
    (hc : 0 < x.containers) (hp : x.points < 0) :
    collectOne st x =
      { appliedRules := st.appliedRules + 1, rules := appendUniqueRule st.rules x,
        score := st.score + x.points, passed := st.passed,
        critical := st.critical ++ [x], advise := st.advise } := by
  have h2 : ¬ 0 ≤ x.points := by omega
  simp [collectOne, hc, hp, h2]

lemma collectOne_nonpos_nonneg (st : Collected) (x : RuleRef)
    (hc : ¬ 0 < x.containers) (hp : 0 ≤ x.points) :
    collectOne st x =
      { appliedRules := st.appliedRules + 1, rules := appendUniqueRule st.rules x,
        score := st.score, passed := st.passed,
        critical := st.critical, advise := st.advise ++ [x] } := by
  simp [collectOne, hc, hp]

lemma collectOne_nonpos_neg (st : Collected) (x : RuleRef)
    (hc : ¬ 0 < x.containers) (hp : x.points < 0) :
    collectOne st x =
      { appliedRules := st.appliedRules + 1, rules := appendUniqueRule st.rules x,
        score := st.score, passed := st.passed,
        critical := st.critical, advise := st.advise } := by
  have h2 : ¬ 0 ≤ x.points := by omega
  simp [collectOne, hc, h2]

/-- Total points of a list of results, as summed by the loop. -/
lemma sumPoints_cons (x : RuleRef) (l : List RuleRef) :
    sumPoints (x :: l) = x.points + sumPoints l := by
  simp [sumPoints]

lemma collect_foldl :
    ∀ (arrival : List RuleRef) (st : Collected),
      (arrival.foldl collectOne st).appliedRules = st.appliedRules + arrival.length ∧
      (arrival.foldl collectOne st).rules = arrival.foldl appendUniqueRule st.rules ∧
      (arrival.foldl collectOne st).passed = st.passed ++ arrival.filter passedTest ∧
      (arrival.foldl collectOne st).critical = st.critical ++ arrival.filter criticalTest ∧
      (arrival.foldl collectOne st).advise = st.advise ++ arrival.filter adviseTest ∧
      (arrival.foldl collectOne st).score =
        st.score + sumPoints (arrival.filter passedTest) +
          sumPoints (arrival.filter criticalTest) := by
  intro arrival
  induction arrival with
  | nil => intro st; simp [sumPoints]
  | cons x xs ih =>
    intro st
    obtain ⟨h1, h2, h3, h4, h5, h6⟩ := ih (collectOne st x)
    simp only [List.foldl_cons]
    by_cases hc : 0 < x.containers
    · by_cases hp : 0 ≤ x.points
      · have hx := collectOne_pos_nonneg st x hc hp
        have ht1 : passedTest x = true := by simp [passedTest, hc, hp]
        have ht2 : criticalTest x = false := by
          have : ¬ x.points < 0 := by omega
          simp [criticalTest, hc, this]
        have ht3 : adviseTest x = false := by simp [adviseTest, hc]
        refine ⟨?_, ?_, ?_, ?_, ?_, ?_⟩
        · rw [h1, hx]; simp; omega
        · rw [h2, hx]
        · rw [h3, hx]; simp [List.filter_cons, ht1]
        · rw [h4, hx]; simp [List.filter_cons, ht2]
        · rw [h5, hx]; simp [List.filter_cons, ht3]
        · rw [h6, hx]; simp [List.filter_cons, ht1, ht2, sumPoints_cons]; omega
      · have hp2 : x.points < 0 := by omega
        have hx := collectOne_pos_neg st x hc hp2
        have ht1 : passedTest x = false := by simp [passedTest, hc, hp]
        have ht2 : criticalTest x = true := by simp [criticalTest, hc, hp2]
        have ht3 : adviseTest x = false := by simp [adviseTest, hc]
        refine ⟨?_, ?_, ?_, ?_, ?_, ?_⟩
        · rw [h1, hx]; simp; omega
        · rw [h2, hx]
        · rw [h3, hx]; simp [List.filter_cons, ht1]
        · rw [h4, hx]; simp [List.filter_cons, ht2]
        · rw [h5, hx]; simp [List.filter_cons, ht3]
        · rw [h6, hx]; simp [List.filter_cons, ht1, ht2, sumPoints_cons]; omega
    · by_cases hp : 0 ≤ x.points
      · have hx := collectOne_nonpos_nonneg st x hc hp
        have ht1 : passedTest x = false := by simp [passedTest, hc]
        have ht2 : criticalTest x = false := by simp [criticalTest, hc]
        have ht3 : adviseTest x = true := by simp [adviseTest, hc, hp]
        refine ⟨?_, ?_, ?_, ?_, ?_, ?_⟩
        · rw [h1, hx]; simp; omega
        · rw [h2, hx]
        · rw [h3, hx]; simp [List.filter_cons, ht1]
        · rw [h4, hx]; simp [List.filter_cons, ht2]
        · rw [h5, hx]; simp [List.filter_cons, ht3]
        · rw [h6, hx]; simp [List.filter_cons, ht1, ht2]
      · have hp2 : x.points < 0 := by omega
        have hx := collectOne_nonpos_neg st x hc hp2
        have ht1 : passedTest x = false := by simp [passedTest, hc]
        have ht2 : criticalTest x = false := by simp [criticalTest, hc]
        have ht3 : adviseTest x = false := by
          have : ¬ 0 ≤ x.points := by omega
          simp [adviseTest, hc, this]
        refine ⟨?_, ?_, ?_, ?_, ?_, ?_⟩
        · rw [h1, hx]; simp; omega
        · rw [h2, hx]
        · rw [h3, hx]; simp [List.filter_cons, ht1]
        · rw [h4, hx]; simp [List.filter_cons, ht2]
        · rw [h5, hx]; simp [List.filter_cons, ht3]
        · rw [h6, hx]; simp [List.filter_cons, ht1, ht2]

lemma collect_appliedRules (arrival : List RuleRef) :
    (collect arrival).appliedRules = arrival.length := by
  have h := (collect_foldl arrival initialCollected).1
  simpa [collect, initialCollected] using h

lemma collect_rules (arrival : List RuleRef) :
    (collect arrival).rules = arrival.foldl appendUniqueRule [] := by
  have h := (collect_foldl arrival initialCollected).2.1
  simpa [collect, initialCollected] using h

lemma collect_passed (arrival : List RuleRef) :
    (collect arrival).passed = arrival.filter passedTest := by
  have h := (collect_foldl arrival initialCollected).2.2.1
  simpa [collect, initialCollected] using h

lemma collect_critical (arrival : List RuleRef) :
    (collect arrival).critical = arrival.filter criticalTest := by
  have h := (collect_foldl arrival initialCollected).2.2.2.1
  simpa [collect, initialCollected] using h

lemma collect_advise (arrival : List RuleRef) :
    (collect arrival).advise = arrival.filter adviseTest := by
  have h := (collect_foldl arrival initialCollected).2.2.2.2.1
  simpa [collect, initialCollected] using h

lemma collect_score (arrival : List RuleRef) :
    (collect arrival).score =
      sumPoints (arrival.filter passedTest) + sumPoints (arrival.filter criticalTest) := by
  have h := (collect_foldl arrival initialCollected).2.2.2.2.2
  simpa [collect, initialCollected] using h

/-! ### Deduplicated accumulation into Rules -/

lemma containsRule_iff (l : List RuleRef) (x : RuleRef) :
    containsRule l x = true ↔ x ∈ l := by
  simp [containsRule, List.any_eq_true]

lemma mem_appendUniqueRule_of_mem (l : List RuleRef) (y x : RuleRef) (h : x ∈ l) :
    x ∈ appendUniqueRule l y := by
  unfold appendUniqueRule
  split
  · exact List.mem_append_left _ h
  · exact h

lemma mem_appendUniqueRule_self (l : List RuleRef) (x : RuleRef) :
    x ∈ appendUniqueRule l x := by
  cases hb : containsRule l x with
  | true =>
    have hx := (containsRule_iff l x).mp hb
    simpa [appendUniqueRule, hb] using hx
  | false => simp [appendUniqueRule, hb]

lemma mem_foldl_appendUniqueRule_of_mem_acc :
    ∀ (l acc : List RuleRef) (x : RuleRef), x ∈ acc → x ∈ l.foldl appendUniqueRule acc := by
  intro l
  induction l with
  | nil => intro acc x h; simpa using h
  | cons y ys ih =>
    intro acc x h
    rw [List.foldl_cons]
    exact ih _ x (mem_appendUniqueRule_of_mem acc y x h)

lemma mem_foldl_appendUniqueRule :
    ∀ (l acc : List RuleRef) (x : RuleRef), x ∈ l → x ∈ l.foldl appendUniqueRule acc := by
  intro l
  induction l with
  | nil => intro acc x h; simp at h
  | cons y ys ih =>
    intro acc x h
    rw [List.foldl_cons]
    rcases List.mem_cons.mp h with h1 | h1
    · subst h1
      exact mem_foldl_appendUniqueRule_of_mem_acc ys _ x (mem_appendUniqueRule_self acc x)
    · exact ih _ x h1

lemma foldl_appendUniqueRule_of_nodup :
    ∀ (l acc : List RuleRef), l.Nodup → (∀ y ∈ l, y ∉ acc) →
      l.foldl appendUniqueRule acc = acc ++ l := by
  intro l
  induction l with
  | nil => intro acc _ _; simp
  | cons y ys ih =>
    intro acc hnd hdisj
    rw [List.foldl_cons]
    have hy : y ∉ acc := hdisj y (List.mem_cons_self y ys)
    have hcontains : containsRule acc y = false := by
      cases hb : containsRule acc y with
      | false => rfl
      | true => exact absurd ((containsRule_iff acc y).mp hb) hy
    have happ : appendUniqueRule acc y = acc ++ [y] := by
      simp [appendUniqueRule, hcontains]
    have hdisj2 : ∀ z ∈ ys, z ∉ acc ++ [y] := by
      intro z hz
      simp only [List.mem_append, List.mem_singleton]
      rintro (hza | hzy)
      · exact hdisj z (List.mem_cons_of_mem y hz) hza
      · subst hzy
        exact (List.nodup_cons.mp hnd).1 hz
    rw [happ, ih (acc ++ [y]) (List.nodup_cons.mp hnd).2 hdisj2]
    simp

/-! ### Facts about the dispatched results -/

lemma evalRule_some_id {d : Doc} {r : Rule} {ref : RuleRef}
    (h : evalRule d r = some ref) : ref.id = r.id := by
  unfold evalRule at h
  cases he : r.eval d with
  | none => rw [he] at h; simp at h
  | some c =>
    rw [he] at h
    simp only [Option.map_some'] at h
    rw [← Option.some_inj.mp h]

lemma mem_results_map_id :
    ∀ (rs : List Rule) (d : Doc) (x : RuleRef),
      x ∈ results rs d → x.id ∈ rs.map Rule.id := by
  intro rs d
  induction rs with
  | nil => intro x h; simp [results] at h
  | cons r rest ih =>
    intro x h
    cases he : evalRule d r with
    | none =>
      simp only [results, List.filterMap_cons, he] at h
      exact List.mem_cons_of_mem _ (ih x h)
    | some ref =>
      simp only [results, List.filterMap_cons, he] at h
      rcases List.mem_cons.mp h with h1 | h1
      · subst h1
        rw [List.map_cons]
        exact List.mem_cons.mpr (Or.inl (evalRule_some_id he))
      · exact List.mem_cons_of_mem _ (ih x h1)

lemma results_map_id_nodup :
    ∀ (rs : List Rule) (d : Doc),
      (rs.map Rule.id).Nodup → ((results rs d).map RuleRef.id).Nodup := by
  intro rs d
  induction rs with
  | nil => intro _; simp [results]
  | cons r rest ih =>
    intro h
    rw [List.map_cons, List.nodup_cons] at h
    cases he : evalRule d r with
    | none => simpa [results, List.filterMap_cons, he] using ih h.2
    | some ref =>
      have hr : results (r :: rest) d = ref :: results rest d := by
        simp [results, List.filterMap_cons, he]
      rw [hr, List.map_cons, List.nodup_cons]
      refine ⟨?_, ih h.2⟩
      intro hmem
      rcases List.mem_map.mp hmem with ⟨y, hy, hyid⟩
      have hin : y.id ∈ rest.map Rule.id := mem_results_map_id rest d y hy
      rw [hyid, evalRule_some_id he] at hin
      exact h.1 hin

lemma results_length_le (rs : List Rule) (d : Doc) :
    (results rs d).length ≤ rs.length :=
  List.length_filterMap_le (evalRule d) rs

/-- Exactly one of the four outcome tests holds for each result, so the
four filters partition the arrival list. -/
lemma length_filter_partition :
    ∀ l : List RuleRef,
      l.length = (l.filter passedTest).length + (l.filter criticalTest).length +
        (l.filter adviseTest).length + (l.filter droppedTest).length := by
  intro l
  induction l with
  | nil => simp
  | cons x xs ih =>
    by_cases hc : 0 < x.containers
    · by_cases hp : 0 ≤ x.points
      · have h2 : ¬ x.points < 0 := by omega
        simp [List.filter_cons, passedTest, criticalTest, adviseTest, droppedTest, hc, hp, h2]
        omega
      · have h2 : x.points < 0 := by omega
        simp [List.filter_cons, passedTest, criticalTest, adviseTest, droppedTest, hc, hp, h2]
        omega
    · by_cases hp : 0 ≤ x.points
      · have h2 : ¬ x.points < 0 := by omega
        simp [List.filter_cons, passedTest, criticalTest, adviseTest, droppedTest, hc, hp, h2]
        omega
      · have h2 : x.points < 0 := by omega
        simp [List.filter_cons, passedTest, criticalTest, adviseTest, droppedTest, hc, hp, h2]
        omega

/-! ### Behaviour of the fragment loop of Run -/

lemma Run_not_json (isV : String → Bool) (toJSON : String → Except String String)
    (gen : String → Report) (input : String) (h : isV input = false) :
    Run isV toJSON gen input = runLoop toJSON gen [] (fragmentsOf input) := by
  simp [Run, h]

lemma runLoop_all_skip (toJSON : String → Except String String) (gen : String → Report) :
    ∀ frags : List String, frags ≠ [] →
      (∀ f ∈ frags, skipFragment (trimSpace f) = true) →
      runLoop toJSON gen [] frags = ([], some RunErr.invalidInput) := by
  intro frags
  induction frags with
  | nil => intro h _; exact absurd rfl h
  | cons d rest ih =>
    intro _ hall
    have hd := hall d (List.mem_cons_self d rest)
    cases rest with
    | nil => simp [runLoop, hd]
    | cons r rs =>
      have hstep : runLoop toJSON gen [] (d :: r :: rs) = runLoop toJSON gen [] (r :: rs) := by
        simp [runLoop, hd]
      rw [hstep]
      exact ih (by simp) (fun f hf => hall f (List.mem_cons_of_mem d hf))

lemma runLoop_all_ok (toJSON : String → Except String String) (gen : String → Report)
    (jv : String → String) :
    ∀ (frags : List String) (acc : List Report),
      (acc = [] → frags.any (fun f => !skipFragment (trimSpace f)) = true) →
      (∀ f ∈ frags, skipFragment (trimSpace f) = false →
        toJSON (trimSpace f) = Except.ok (jv (trimSpace f))) →
      runLoop toJSON gen acc frags =
        (acc ++ (frags.filter fun f => !skipFragment (trimSpace f)).map
            (fun f => gen (jv (trimSpace f))), none) := by
  intro frags
  induction frags with
  | nil => intro acc _ _; simp [runLoop]
  | cons d rest ih =>
    intro acc hne hok
    cases hd : skipFragment (trimSpace d) with
    | true =>
      have hnerest : acc = [] → rest.any (fun f => !skipFragment (trimSpace f)) = true := by
        intro hacc
        have hany := hne hacc
        simpa [List.any_cons, hd] using hany
      have hcond : (rest.isEmpty && acc.isEmpty) = false := by
        by_cases hacc : acc = []
        · have hany := hnerest hacc
          cases rest with
          | nil => exact absurd hany (by simp)
          | cons r rs => simp
        · cases acc with
          | nil => exact absurd rfl hacc
          | cons p ps => simp
      have hstep : runLoop toJSON gen acc (d :: rest) = runLoop toJSON gen acc rest := by
        simp [runLoop, hd, hcond]
      rw [hstep, ih acc hnerest (fun f hf hs => hok f (List.mem_cons_of_mem d hf) hs)]
      simp [List.filter_cons, hd]
    | false =>
      have hokd := hok d (List.mem_cons_self d rest) hd
      have hstep : runLoop toJSON gen acc (d :: rest) =
          runLoop toJSON gen (acc ++ [gen (jv (trimSpace d))]) rest := by
        simp [runLoop, hd, hokd]
      rw [hstep, ih (acc ++ [gen (jv (trimSpace d))]) (by simp)
        (fun f hf hs => hok f (List.mem_cons_of_mem d hf) hs)]
      simp [List.filter_cons, hd]

lemma runLoop_conv_error (toJSON : String → Except String String) (gen : String → Report)
    (jv : String → String) (d : String) (rest : List String) (e : String) :
    ∀ (pre : List String) (acc : List Report),
      (∀ f ∈ pre, skipFragment (trimSpace f) = false →
        toJSON (trimSpace f) = Except.ok (jv (trimSpace f))) →
      skipFragment (trimSpace d) = false →
      toJSON (trimSpace d) = Except.error e →
      runLoop toJSON gen acc (pre ++ d :: rest) =
        (acc ++ (pre.filter fun f => !skipFragment (trimSpace f)).map
            (fun f => gen (jv (trimSpace f))), some (RunErr.convErr e)) := by
  intro pre
  induction pre with
  | nil =>
    intro acc _ hd he
    simp [runLoop, hd, he]
  | cons f fs ih =>
    intro acc hok hd he
    cases hf : skipFragment (trimSpace f) with
    | true =>
      have hcond : ((fs ++ d :: rest).isEmpty && acc.isEmpty) = false := by
        cases fs with
        | nil => simp
        | cons g gs => simp
      have hstep : runLoop toJSON gen acc ((f :: fs) ++ d :: rest) =
          runLoop toJSON gen acc (fs ++ d :: rest) := by
        simp [runLoop, hf, hcond]
      rw [hstep, ih acc (fun g hg hs => hok g (List.mem_cons_of_mem f hg) hs) hd he]
      simp [List.filter_cons, hf]
    | false =>
      have hokf := hok f (List.mem_cons_self f fs) hf
      have hstep : runLoop toJSON gen acc ((f :: fs) ++ d :: rest) =
          runLoop toJSON gen (acc ++ [gen (jv (trimSpace f))]) (fs ++ d :: rest) := by
        simp [runLoop, hf, hokf]
      rw [hstep, ih (acc ++ [gen (jv (trimSpace f))])
        (fun g hg hs => hok g (List.mem_cons_of_mem f hg) hs) hd he]
      simp [List.filter_cons, hf]

/-! ### Claim theorems -/

/-- Claim C1: in every report, whatever the channel arrival order, the
score equals the sum of Points over the Critical and Passed buckets, so
Advise entries never contribute to the score. -/
theorem claimC1_score_eq_sum (fileName : String) (d : Doc) (arrival : List RuleRef) :
    (generateReportWith fileName d arrival).score =
      sumPoints (generateReportWith fileName d arrival).scoring.critical +
        sumPoints (generateReportWith fileName d arrival).scoring.passed := by
  have hs : (generateReportWith fileName d arrival).score = (collect arrival).score := by
    simp [generateReportWith]
  have hc : (generateReportWith fileName d arrival).scoring.critical =
      sortRefs (arrival.filter criticalTest) := by
    simp [generateReportWith, collect_critical]
  have hp : (generateReportWith fileName d arrival).scoring.passed =
      sortRefs (arrival.filter passedTest) := by
    simp [generateReportWith, collect_passed]
  rw [hs, hc, hp, collect_score,
    sumPoints_of_perm (sortRefs_perm (arrival.filter criticalTest)),
    sumPoints_of_perm (sortRefs_perm (arrival.filter passedTest))]
  omega

/-- Claim C2 (amended): the schema-validation block is commented out in the
source, so no validator is consulted: every report is produced with
Valid equal to true and rule dispatch always runs, whatever the document. -/
theorem claimC2_no_validation (fileName : String) (d : Doc) (arrival : List RuleRef) :
    (generateReportWith fileName d arrival).valid = true := by
  simp [generateReportWith]

/-- Claim C2 counterexample: on a queryable document with no resolvable
kind the claim requires Valid=false, a validator-derived message, and no
rule dispatch, but the code reports Valid=true with the dispatch-derived
not-supported message. -/
theorem claimC2_counterexample :
    docNoKind.kind = none ∧
      (generateReport newRuleset "test.yaml" docNoKind).valid = true ∧
      (generateReport newRuleset "test.yaml" docNoKind).message = notSupportedMessage := by
  refine ⟨rfl, by decide, by decide⟩

/-- Claim C3 counterexample: the Privileged rule with negative points and
zero matches on a Pod document does appear in the Rules list of the
report (while the claim says it appears nowhere). -/
theorem claimC3_counterexample :
    privRef.points < 0 ∧ privRef.containers = 0 ∧
      privRef ∈ (generateReport newRuleset "test.yaml" docPodAllZero).rules := by
  refine ⟨by decide, by decide, by decide⟩

/-- Claim C3 (amended): a negative-points result with zero matches lands in
no bucket (Critical, Passed or Advise), but it does appear in the Rules
list of the report. -/
theorem claimC3_no_bucket_but_in_rules (fileName : String) (d : Doc)
    (arrival : List RuleRef) (ref : RuleRef) (hmem : ref ∈ arrival)
    (hc : ref.containers = 0) (hp : ref.points < 0) :
    ref ∈ (generateReportWith fileName d arrival).rules ∧
      ref ∉ (generateReportWith fileName d arrival).scoring.critical ∧
      ref ∉ (generateReportWith fileName d arrival).scoring.passed ∧
      ref ∉ (generateReportWith fileName d arrival).scoring.advise := by
  have hrules : (generateReportWith fileName d arrival).rules =
      arrival.foldl appendUniqueRule [] := by
    simp [generateReportWith, collect_rules]
  have hcrit : (generateReportWith fileName d arrival).scoring.critical =
      sortRefs (arrival.filter criticalTest) := by
    simp [generateReportWith, collect_critical]
  have hpass : (generateReportWith fileName d arrival).scoring.passed =
      sortRefs (arrival.filter passedTest) := by
    simp [generateReportWith, collect_passed]
  have hadv : (generateReportWith fileName d arrival).scoring.advise =
      sortRefs (arrival.filter adviseTest) := by
    simp [generateReportWith, collect_advise]
  refine ⟨?_, ?_, ?_, ?_⟩
  · rw [hrules]
    exact mem_foldl_appendUniqueRule arrival [] ref hmem
  · rw [hcrit]
    intro hin
    have h1 : ref ∈ arrival.filter criticalTest := (sortRefs_perm _).subset hin
    have h2 := List.of_mem_filter h1
    simp [criticalTest, hc] at h2
  · rw [hpass]
    intro hin
    have h1 : ref ∈ arrival.filter passedTest := (sortRefs_perm _).subset hin
    have h2 := List.of_mem_filter h1
    simp [passedTest, hc] at h2
  · rw [hadv]
    intro hin
    have h1 : ref ∈ arrival.filter adviseTest := (sortRefs_perm _).subset hin
    have h2 := List.of_mem_filter h1
    have hple : ¬ 0 ≤ ref.points := by omega
    simp [adviseTest, hc, hple] at h2

/-- Claim C3 witness: the amended statement evaluated on the concrete
Privileged result. -/
theorem claimC3_witness :
    privRef ∈ (generateReportWith "f" docPodAllZero [privRef]).rules ∧
      privRef ∉ (generateReportWith "f" docPodAllZero [privRef]).scoring.critical ∧
      privRef ∉ (generateReportWith "f" docPodAllZero [privRef]).scoring.passed ∧
      privRef ∉ (generateReportWith "f" docPodAllZero [privRef]).scoring.advise :=
  claimC3_no_bucket_but_in_rules "f" docPodAllZero [privRef] privRef
    (by decide) (by decide) (by decide)

/-- Claim C4 counterexample: on a Pod document where every predicate
reports zero matches, nine rules apply (none of them not-applicable), but
the buckets hold only the five non-negative results: the four
negative-points zero-match results are counted as applied yet occupy no
bucket. -/
theorem claimC4_counterexample :
    (collect (results newRuleset docPodAllZero)).appliedRules = 9 ∧
      (generateReport newRuleset "f" docPodAllZero).scoring.passed.length +
        (generateReport newRuleset "f" docPodAllZero).scoring.critical.length +
        (generateReport newRuleset "f" docPodAllZero).scoring.advise.length = 5 := by
  refine ⟨by decide, by decide⟩

/-- Claim C4 (amended): the number of applied rules equals the bucket total
plus the number of negative-points zero-match results, which are applied
but occupy no bucket. -/
theorem claimC4_applied_eq_buckets_plus_dropped (fileName : String) (d : Doc)
    (arrival : List RuleRef) :
    (collect arrival).appliedRules =
      (generateReportWith fileName d arrival).scoring.passed.length +
        (generateReportWith fileName d arrival).scoring.critical.length +
        (generateReportWith fileName d arrival).scoring.advise.length +
        (arrival.filter droppedTest).length := by
  have hcrit : (generateReportWith fileName d arrival).scoring.critical =
      sortRefs (arrival.filter criticalTest) := by
    simp [generateReportWith, collect_critical]
  have hpass : (generateReportWith fileName d arrival).scoring.passed =
      sortRefs (arrival.filter passedTest) := by
    simp [generateReportWith, collect_passed]
  have hadv : (generateReportWith fileName d arrival).scoring.advise =
      sortRefs (arrival.filter adviseTest) := by
    simp [generateReportWith, collect_advise]
  rw [collect_appliedRules, hcrit, hpass, hadv,
    (sortRefs_perm (arrival.filter criticalTest)).length_eq,
    (sortRefs_perm (arrival.filter passedTest)).length_eq,
    (sortRefs_perm (arrival.filter adviseTest)).length_eq]
  exact length_filter_partition arrival

/-- Claim C5: a fragment that trims to empty or to a bare separator marker
is skipped without producing a report, except that a skippable last
fragment with zero reports so far fails with the structural invalid-input
error; consequently the input consisting solely of a separator yields the
invalid-input error and no reports, and a trailing separator with nothing
after it yields exactly one report and no error. -/
theorem claimC5_skip_rules :
    (∀ (toJSON : String → Except String String) (gen : String → Report)
        (reports : List Report) (d : String) (rest : List String),
        skipFragment (trimSpace d) = true → ¬(rest = [] ∧ reports = []) →
        runLoop toJSON gen reports (d :: rest) = runLoop toJSON gen reports rest) ∧
    (∀ (toJSON : String → Except String String) (gen : String → Report) (d : String),
        skipFragment (trimSpace d) = true →
        runLoop toJSON gen [] [d] = ([], some RunErr.invalidInput)) ∧
    (∀ (isV : String → Bool) (toJSON : String → Except String String)
        (gen : String → Report), isV "---" = false →
        Run isV toJSON gen "---" = ([], some RunErr.invalidInput)) ∧
    (∀ (isV : String → Bool) (toJSON : String → Except String String)
        (gen : String → Report) (j : String), isV "doc1\n---\n" = false →
        toJSON "doc1" = Except.ok j →
        Run isV toJSON gen "doc1\n---\n" = ([gen j], none)) := by
  refine ⟨?_, ?_, ?_, ?_⟩
  · intro toJSON gen reports d rest hskip hne
    have hcond : (rest.isEmpty && reports.isEmpty) = false := by
      by_cases hr : rest = []
      · subst hr
        have hrep : reports ≠ [] := fun h => hne ⟨rfl, h⟩
        cases reports with
        | nil => exact absurd rfl hrep
        | cons p ps => simp
      · cases rest with
        | nil => exact absurd rfl hr
        | cons r rs => simp
    simp [runLoop, hskip, hcond]
  · intro toJSON gen d hskip
    simp [runLoop, hskip]
  · intro isV toJSON gen h
    rw [Run_not_json isV toJSON gen _ h]
    have hfrag : fragmentsOf "---" = ["---"] := by decide
    rw [hfrag]
    have hskip : skipFragment (trimSpace "---") = true := by decide
    simp [runLoop, hskip]
  · intro isV toJSON gen j h hj
    rw [Run_not_json isV toJSON gen _ h]
    have hfrag : fragmentsOf "doc1\n---\n" = ["doc1", ""] := by decide
    rw [hfrag]
    have h1 : skipFragment (trimSpace "doc1") = false := by decide
    have h2 : trimSpace "doc1" = "doc1" := by decide
    have h3 : skipFragment (trimSpace "") = true := by decide
    have h4 : skipFragment "doc1" = false := by decide
    simp [runLoop, h1, h2, h3, h4, hj]

/-- Claim C5 witness: the skip rules evaluated on concrete collaborators
and inputs. -/
theorem claimC5_witness :
    runLoop toJSON0 gen0 [report0] ["", "x"] = runLoop toJSON0 gen0 [report0] ["x"] ∧
      runLoop toJSON0 gen0 [] ["---"] = ([], some RunErr.invalidInput) ∧
      Run isV0 toJSON0 gen0 "---" = ([], some RunErr.invalidInput) ∧
      Run isV0 toJSON0 gen0 "doc1\n---\n" = ([gen0 "doc1"], none) :=
  ⟨claimC5_skip_rules.1 toJSON0 gen0 [report0] "" ["x"] (by decide) (by simp),
   claimC5_skip_rules.2.1 toJSON0 gen0 "---" (by decide),
   claimC5_skip_rules.2.2.1 isV0 toJSON0 gen0 rfl,
   claimC5_skip_rules.2.2.2 isV0 toJSON0 gen0 "doc1" rfl rfl⟩

/-- Claim C6: when the converter fails on a fragment mid-batch, Run stops
there and returns exactly the reports already built for the earlier
fragments, in source order, together with the conversion error. -/
theorem claimC6_partial_success (isV : String → Bool)
    (toJSON : String → Except String String) (gen : String → Report)
    (jv : String → String) (input : String) (pre : List String) (d : String)
    (rest : List String) (e : String)
    (hV : isV input = false)
    (hfrag : fragmentsOf input = pre ++ d :: rest)
    (hok : ∀ f ∈ pre, skipFragment (trimSpace f) = false →
      toJSON (trimSpace f) = Except.ok (jv (trimSpace f)))
    (hd : skipFragment (trimSpace d) = false)
    (he : toJSON (trimSpace d) = Except.error e) :
    Run isV toJSON gen input =
      ((pre.filter fun f => !skipFragment (trimSpace f)).map
          (fun f => gen (jv (trimSpace f))), some (RunErr.convErr e)) := by
  rw [Run_not_json isV toJSON gen input hV, hfrag,
    runLoop_conv_error toJSON gen jv d rest e pre [] hok hd he]
  simp

/-- Claim C6 witness: a concrete two-fragment input whose second fragment
fails conversion keeps the first report and returns the error. -/
theorem claimC6_witness :
    Run isV0 toJSON0 gen0 "a\n---\nbad" = ([gen0 "a"], some (RunErr.convErr "boom")) := by
  rw [claimC6_partial_success isV0 toJSON0 gen0 (fun s => s) "a\n---\nbad"
    ["a"] "bad" [] "boom" rfl (by decide)
    (by
      intro f hf _
      rw [List.mem_singleton] at hf
      subst hf
      rfl)
    (by decide) rfl]
  decide

/-- Claim C7: each of the Critical, Passed and Advise lists of every report
is sorted by the deterministic comparator: advise weight descending, rule
ID ascending as the tie-break. -/
theorem claimC7_buckets_sorted (fileName : String) (d : Doc) (arrival : List RuleRef) :
    List.Sorted ruleRefLE (generateReportWith fileName d arrival).scoring.critical ∧
      List.Sorted ruleRefLE (generateReportWith fileName d arrival).scoring.passed ∧
      List.Sorted ruleRefLE (generateReportWith fileName d arrival).scoring.advise := by
  have hcrit : (generateReportWith fileName d arrival).scoring.critical =
      sortRefs (collect arrival).critical := by
    simp [generateReportWith]
  have hpass : (generateReportWith fileName d arrival).scoring.passed =
      sortRefs (collect arrival).passed := by
    simp [generateReportWith]
  have hadv : (generateReportWith fileName d arrival).scoring.advise =
      sortRefs (collect arrival).advise := by
    simp [generateReportWith]
  refine ⟨?_, ?_, ?_⟩
  · rw [hcrit]; exact sortRefs_sorted _
  · rw [hpass]; exact sortRefs_sorted _
  · rw [hadv]; exact sortRefs_sorted _

/-- Claim C8 counterexample: two admissible channel arrival orders for the
same input document produce structurally different reports (the Rules list
order differs), so the full report, Rules order included, is not
determined by the input bytes alone. -/
theorem claimC8_counterexample :
    ((results newRuleset docPodAllZero).reverse).Perm (results newRuleset docPodAllZero) ∧
      generateReportWith "f" docPodAllZero ((results newRuleset docPodAllZero).reverse) ≠
        generateReportWith "f" docPodAllZero (results newRuleset docPodAllZero) :=
  ⟨List.reverse_perm _, by decide⟩

/-- Claim C8 (amended): identical input yields identical Object, FileName,
Message, Score, Valid and identical Scoring buckets including their order,
whatever the channel arrival order; the Rules list is determined only up to
permutation. -/
theorem claimC8_deterministic_up_to_rules_order (fileName : String) (d : Doc)
    (a1 a2 : List RuleRef)
    (h1 : a1.Perm (results newRuleset d)) (h2 : a2.Perm (results newRuleset d)) :
    (generateReportWith fileName d a1).object = (generateReportWith fileName d a2).object ∧
      (generateReportWith fileName d a1).fileName =
        (generateReportWith fileName d a2).fileName ∧
      (generateReportWith fileName d a1).message =
        (generateReportWith fileName d a2).message ∧
      (generateReportWith fileName d a1).score = (generateReportWith fileName d a2).score ∧
      (generateReportWith fileName d a1).valid = (generateReportWith fileName d a2).valid ∧
      (generateReportWith fileName d a1).scoring =
        (generateReportWith fileName d a2).scoring ∧
      ((generateReportWith fileName d a1).rules).Perm
        ((generateReportWith fileName d a2).rules) := by
  have hperm : a1.Perm a2 := h1.trans h2.symm
  have hlen : a1.length = a2.length := hperm.length_eq
  have hcat : (newRuleset.map Rule.id).Nodup := by decide
  have hres := results_map_id_nodup newRuleset d hcat
  have hnd1 : (a1.map RuleRef.id).Nodup := ((h1.map RuleRef.id).nodup_iff).mpr hres
  have hnd2 : (a2.map RuleRef.id).Nodup := ((h2.map RuleRef.id).nodup_iff).mpr hres
  have hnodup1 : a1.Nodup := hnd1.of_map
  have hnodup2 : a2.Nodup := hnd2.of_map
  have hrules : ∀ (a : List RuleRef), a.Nodup →
      (generateReportWith fileName d a).rules = a := by
    intro a ha
    have hf := foldl_appendUniqueRule_of_nodup a [] ha (fun y _ hy => (List.not_mem_nil y) hy)
    simp at hf
    simp [generateReportWith, collect_rules, hf]
  have hsc : (collect a1).score = (collect a2).score := by
    rw [collect_score, collect_score,
      sumPoints_of_perm (hperm.filter passedTest),
      sumPoints_of_perm (hperm.filter criticalTest)]
  have happ : (collect a1).appliedRules = (collect a2).appliedRules := by
    rw [collect_appliedRules, collect_appliedRules, hlen]
  have hbucket : ∀ t : RuleRef → Bool, sortRefs (a1.filter t) = sortRefs (a2.filter t) := by
    intro t
    apply eq_of_perm_of_sorted_nodupIds
    · exact ((sortRefs_perm _).trans (hperm.filter t)).trans (sortRefs_perm _).symm
    · exact sortRefs_sorted _
    · exact sortRefs_sorted _
    · have hsub : (a1.filter t).Sublist a1 := List.filter_sublist a1
      have hft : ((a1.filter t).map RuleRef.id).Nodup := (hsub.map RuleRef.id).nodup hnd1
      exact (((sortRefs_perm (a1.filter t)).map RuleRef.id).nodup_iff).mpr hft
  refine ⟨by simp [generateReportWith], by simp [generateReportWith], ?_, ?_,
    by simp [generateReportWith], ?_, ?_⟩
  · simp only [generateReportWith]
    rw [happ, hsc]
  · simp only [generateReportWith]
    rw [hsc]
  · have hc1 : (generateReportWith fileName d a1).scoring =
        { critical := sortRefs (a1.filter criticalTest),
          passed := sortRefs (a1.filter passedTest),
          advise := sortRefs (a1.filter adviseTest) } := by
      simp [generateReportWith, collect_critical, collect_passed, collect_advise]
    have hc2 : (generateReportWith fileName d a2).scoring =
        { critical := sortRefs (a2.filter criticalTest),
          passed := sortRefs (a2.filter passedTest),
          advise := sortRefs (a2.filter adviseTest) } := by
      simp [generateReportWith, collect_critical, collect_passed, collect_advise]
    rw [hc1, hc2, hbucket criticalTest, hbucket passedTest, hbucket adviseTest]
  · rw [hrules a1 hnodup1, hrules a2 hnodup2]
    exact hperm

/-- Claim C8 witness: the amended determinism statement evaluated on the
catalog-order arrival and its reverse for a concrete document. -/
theorem claimC8_witness :
    (generateReportWith "f" docPodAllZero (results newRuleset docPodAllZero)).object =
      (generateReportWith "f" docPodAllZero
        ((results newRuleset docPodAllZero).reverse)).object ∧
      (generateReportWith "f" docPodAllZero (results newRuleset docPodAllZero)).fileName =
        (generateReportWith "f" docPodAllZero
          ((results newRuleset docPodAllZero).reverse)).fileName ∧
      (generateReportWith "f" docPodAllZero (results newRuleset docPodAllZero)).message =
        (generateReportWith "f" docPodAllZero
          ((results newRuleset docPodAllZero).reverse)).message ∧
      (generateReportWith "f" docPodAllZero (results newRuleset docPodAllZero)).score =
        (generateReportWith "f" docPodAllZero
          ((results newRuleset docPodAllZero).reverse)).score ∧
      (generateReportWith "f" docPodAllZero (results newRuleset docPodAllZero)).valid =
        (generateReportWith "f" docPodAllZero
          ((results newRuleset docPodAllZero).reverse)).valid ∧
      (generateReportWith "f" docPodAllZero (results newRuleset docPodAllZero)).scoring =
        (generateReportWith "f" docPodAllZero
          ((results newRuleset docPodAllZero).reverse)).scoring ∧
      ((generateReportWith "f" docPodAllZero
          (results newRuleset docPodAllZero)).rules).Perm
        ((generateReportWith "f" docPodAllZero
          ((results newRuleset docPodAllZero).reverse)).rules) :=
  claimC8_deterministic_up_to_rules_order "f" docPodAllZero
    (results newRuleset docPodAllZero) ((results newRuleset docPodAllZero).reverse)
    (List.Perm.refl _) (List.reverse_perm _)

/-- Claim C9 counterexample: on a queryable document with a name and a
namespace but no kind, the code returns the bare string "Unknown", not the
full triple with a defaulted kind component that the claim prescribes. -/
theorem claimC9_counterexample :
    (generateReport newRuleset "f" docKindlessNamed).object = "Unknown" ∧
      claimedObjectName docKindlessNamed = "Unknown/app.prod" ∧
      (generateReport newRuleset "f" docKindlessNamed).object ≠
        claimedObjectName docKindlessNamed := by
  refine ⟨by decide, by decide, by decide⟩

/-- Claim C9 (amended): the object identity is the full
kind/name.namespace triple with name defaulting to "undefined" and
namespace to "default" only when the document is queryable and has a kind;
otherwise it is the bare string "Unknown". -/
theorem claimC9_object_identity (fileName : String) (d : Doc) (arrival : List RuleRef) :
    (generateReportWith fileName d arrival).object = amendedObjectName d := by
  have hobj : (generateReportWith fileName d arrival).object = getObjectName d := by
    simp [generateReportWith]
  rw [hobj]
  unfold getObjectName amendedObjectName
  cases hq : d.queryable with
  | false => simp
  | true =>
    cases hk : d.kind with
    | none => simp
    | some k =>
      cases hn : d.name with
      | none =>
        cases hns : d.nspace with
        | none => simp [String.append_assoc]
        | some ns =>
          have hlit : ("/undefined" : String) = "/" ++ "undefined" := rfl
          simp only [Bool.not_true, Bool.false_eq_true, if_false, hlit]
          simp [String.append_assoc]
      | some nm =>
        cases hns : d.nspace with
        | none => simp [String.append_assoc]
        | some ns => simp [String.append_assoc]

/-- Claim C10: the catalog has pairwise distinct rule IDs, each catalog
rule contributes at most one result, deduplication therefore never
discards a result: the Rules list is exactly the arrival list, has at most
one entry per rule ID, and its length equals the number of applied
rules. -/
theorem claimC10_rules_unique (fileName : String) (d : Doc) (arrival : List RuleRef)
    (h : arrival.Perm (results newRuleset d)) :
    (newRuleset.map Rule.id).Nodup ∧
      (results newRuleset d).length ≤ newRuleset.length ∧
      (generateReportWith fileName d arrival).rules = arrival ∧
      ((generateReportWith fileName d arrival).rules.map RuleRef.id).Nodup ∧
      (generateReportWith fileName d arrival).rules.length =
        (collect arrival).appliedRules := by
  have hcat : (newRuleset.map Rule.id).Nodup := by decide
  have hres := results_map_id_nodup newRuleset d hcat
  have hnd : (arrival.map RuleRef.id).Nodup := ((h.map RuleRef.id).nodup_iff).mpr hres
  have hnodup : arrival.Nodup := hnd.of_map
  have hrules : (generateReportWith fileName d arrival).rules = arrival := by
    have hf := foldl_appendUniqueRule_of_nodup arrival [] hnodup
      (fun y _ hy => (List.not_mem_nil y) hy)
    simp at hf
    simp [generateReportWith, collect_rules, hf]
  refine ⟨hcat, results_length_le newRuleset d, hrules, ?_, ?_⟩
  · rw [hrules]; exact hnd
  · rw [hrules, collect_appliedRules]

/-- Claim C10 witness: the uniqueness statement evaluated on a concrete
document with the catalog-order arrival. -/
theorem claimC10_witness :
    (newRuleset.map Rule.id).Nodup ∧
      (results newRuleset docPodAllZero).length ≤ newRuleset.length ∧
      (generateReportWith "f" docPodAllZero (results newRuleset docPodAllZero)).rules =
        results newRuleset docPodAllZero ∧
      ((generateReportWith "f" docPodAllZero
          (results newRuleset docPodAllZero)).rules.map RuleRef.id).Nodup ∧
      (generateReportWith "f" docPodAllZero
          (results newRuleset docPodAllZero)).rules.length =
        (collect (results newRuleset docPodAllZero)).appliedRules :=
  claimC10_rules_unique "f" docPodAllZero (results newRuleset docPodAllZero)
    (List.Perm.refl _)

end Badrobot
